import Mathlib

/-!
Shallow embedding of the mcp-sandbox core: the module reflector
(signature inference over a callable's source text, export walking,
schema generation), the sandboxed tool executor (registry lookup,
timer-vs-handler race, result encoding), the protocol server's
request dispatch, and the `MCPSandbox` facade.

Modeling conventions:
* JavaScript strings are Lean `String`s; character-level work is done
  on `List Char`.  The sources handled here are ASCII, so the ASCII
  subsets of the ECMAScript whitespace and word classes are used.
* JavaScript objects are modeled as association lists carried in
  own-property enumeration order (the order `Object.entries` /
  `Object.values` report: a JS engine stores integer-like keys first,
  in ascending order, then string keys in insertion order).
* Time is simulated: a handler is described by how long its
  synchronous portion blocks the event loop and by what its returned
  value or promise does afterwards; `executionTime` is milliseconds
  since the recorded start.
* Fallible code returns `Except`; a call that never returns (an
  awaited promise that never settles) is encoded as `Except.ok none`.
-/

/-- JS whitespace test (ASCII subset of the ECMAScript WhiteSpace and
LineTerminator sets). -/
def isJsSpace (c : Char) : Bool :=
  c = ' ' || c = '\t' || c = '\n' || c = '\r' || c.toNat = 11 || c.toNat = 12

/-- JS word character (the regex word class): ASCII letters, digits, underscore. -/
def isJsWord (c : Char) : Bool :=
  ('a' ≤ c && c ≤ 'z') || ('A' ≤ c && c ≤ 'Z') || ('0' ≤ c && c ≤ '9') || c = '_'

/-- The left curly brace character, kept as a named constant. -/
def lbrace : Char := Char.ofNat 123

/-- The right curly brace character, kept as a named constant. -/
def rbrace : Char := Char.ofNat 125

/-- One-character string holding the left curly brace. -/
def lbraceStr : String := String.mk [lbrace]

/-- String.prototype.trim on a character list. -/
def jsTrimChars (cs : List Char) : List Char :=
  ((cs.dropWhile isJsSpace).reverse.dropWhile isJsSpace).reverse

/-- String.prototype.trim. -/
def jsTrim (s : String) : String := String.mk (jsTrimChars s.toList)

/-- String.prototype.split with a single-character separator: splits at
every occurrence; an empty input yields one empty piece, as in JS. -/
def splitOnChar (sep : Char) : List Char → List (List Char)
  | [] => [[]]
  | c :: rest =>
    let r := splitOnChar sep rest
    if c = sep then [] :: r
    else
      match r with
      | [] => [[c]]
      | h :: t => (c :: h) :: t

/-- Whether `pat` is an initial segment of `s`. -/
def listStartsWith (pat s : List Char) : Bool :=
  match pat, s with
  | [], _ => true
  | _ :: _, [] => false
  | p :: ps, c :: cs => p = c && listStartsWith ps cs

/-- Whether `pat` occurs somewhere in `s` (String.prototype.includes). -/
def listContainsSub (pat s : List Char) : Bool :=
  match s with
  | [] => listStartsWith pat []
  | _ :: rest => listStartsWith pat s || listContainsSub pat rest

/-- Strip the literal `pat` off the front of `s`, returning the remainder. -/
def stripLit (pat s : List Char) : Option (List Char) :=
  match pat, s with
  | [], rest => some rest
  | _ :: _, [] => none
  | p :: ps, c :: cs => if p = c then stripLit ps cs else none

/-- Decimal digit test. -/
def isDecDigit (c : Char) : Bool := '0' ≤ c && c ≤ '9'

/-- Hexadecimal digit test. -/
def isHexDigit (c : Char) : Bool :=
  isDecDigit c || ('a' ≤ c && c ≤ 'f') || ('A' ≤ c && c ≤ 'F')

/-- Octal digit test. -/
def isOctDigit (c : Char) : Bool := '0' ≤ c && c ≤ '7'

/-- Binary digit test. -/
def isBinDigit (c : Char) : Bool := c = '0' || c = '1'

/-- Exponent part of a decimal numeral: `e`/`E`, optional sign, one or
more digits.  Returns the remainder when the input starts with a
well-formed exponent. -/
def parseExpPart : List Char → Option (List Char)
  | [] => none
  | c :: rest =>
    if c = 'e' || c = 'E' then
      let rest2 :=
        match rest with
        | s :: r => if s = '+' || s = '-' then r else rest
        | [] => rest
      if (rest2.takeWhile isDecDigit).isEmpty then none
      else some (rest2.dropWhile isDecDigit)
    else none

/-- Unsigned decimal numeral: `digits [. digits] [exp]` or `. digits [exp]`.
Returns the remainder after the numeral. -/
def parseUnsignedDec (s : List Char) : Option (List Char) :=
  if (s.takeWhile isDecDigit).isEmpty then
    match s with
    | '.' :: r =>
      if (r.takeWhile isDecDigit).isEmpty then none
      else
        let r2 := r.dropWhile isDecDigit
        some ((parseExpPart r2).getD r2)
    | _ => none
  else
    let r := s.dropWhile isDecDigit
    let r2 :=
      match r with
      | '.' :: rr => rr.dropWhile isDecDigit
      | _ => r
    some ((parseExpPart r2).getD r2)

/-- Radix-prefixed numeral (`0x…`, `0o…`, `0b…`), which admits no sign.
Returns the remainder after the numeral. -/
def parseRadix (s : List Char) : Option (List Char) :=
  match s with
  | '0' :: x :: rest =>
    if x = 'x' || x = 'X' then
      if (rest.takeWhile isHexDigit).isEmpty then none
      else some (rest.dropWhile isHexDigit)
    else if x = 'o' || x = 'O' then
      if (rest.takeWhile isOctDigit).isEmpty then none
      else some (rest.dropWhile isOctDigit)
    else if x = 'b' || x = 'B' then
      if (rest.takeWhile isBinDigit).isEmpty then none
      else some (rest.dropWhile isBinDigit)
    else none
  | _ => none

/-- Whether `Number(s)` is not NaN for an already-trimmed `s`: the
ECMAScript StringNumericLiteral grammar.  The empty string converts to
0, `Infinity` forms are accepted with an optional sign, radix-prefixed
numerals admit no sign. -/
def jsNumberNotNaN (s : String) : Bool :=
  let cs := s.toList
  if cs.isEmpty then true
  else
    let core :=
      match cs with
      | c :: r => if c = '+' || c = '-' then r else cs
      | [] => cs
    (match parseRadix cs with | some [] => true | _ => false)
    || (match stripLit "Infinity".toList core with | some [] => true | _ => false)
    || (match parseUnsignedDec core with | some [] => true | _ => false)

/-!
Signature inference (ModuleReflector.extractParameters and friends).
The source matches the parameter-list capture of the pattern
`(?:function\s*\w*\s*|(?:\w+\s*=>|\([^)]*\)\s*=>))\s*\(([^)]*)\)`
against `func.toString()`.  The pattern is embedded directly: each
alternative is deterministic (every starred class is disjoint from the
character that must follow), so a first-position / first-alternative
scan reproduces the regex engine's leftmost match.
-/

/-- The tail of the extraction pattern shared by all alternatives:
whitespace, an opening parenthesis, the capture group of non-parenthesis
characters, and the closing parenthesis. -/
def sigTail (s : List Char) : Option (List Char) :=
  match s.dropWhile isJsSpace with
  | '(' :: rest =>
    match rest.dropWhile (fun c => c ≠ ')') with
    | ')' :: _ => some (rest.takeWhile (fun c => c ≠ ')'))
    | _ => none
  | _ => none

/-- First alternative of the extraction pattern: the literal `function`,
whitespace, an optional name, whitespace, then the shared tail. -/
def sigAltFunction (s : List Char) : Option (List Char) :=
  match stripLit "function".toList s with
  | some r => sigTail ((r.dropWhile isJsSpace).dropWhile isJsWord)
  | none => none

/-- Second alternative: one or more word characters, whitespace, the
arrow, then the shared tail. -/
def sigAltArrowWord (s : List Char) : Option (List Char) :=
  if (s.takeWhile isJsWord).isEmpty then none
  else
    match stripLit ['=', '>'] ((s.dropWhile isJsWord).dropWhile isJsSpace) with
    | some r => sigTail r
    | none => none

/-- Third alternative: a parenthesized group, whitespace, the arrow,
then the shared tail. -/
def sigAltArrowParens (s : List Char) : Option (List Char) :=
  match s with
  | '(' :: rest =>
    match rest.dropWhile (fun c => c ≠ ')') with
    | ')' :: r2 =>
      match stripLit ['=', '>'] (r2.dropWhile isJsSpace) with
      | some r3 => sigTail r3
      | none => none
    | _ => none
  | _ => none

/-- Try the three alternatives at one position, in the pattern's order. -/
def sigMatchAt (s : List Char) : Option (List Char) :=
  match sigAltFunction s with
  | some cap => some cap
  | none =>
    match sigAltArrowWord s with
    | some cap => some cap
    | none => sigAltArrowParens s

/-- Scan positions left to right for the first match. -/
def sigSearch : List Char → Option (List Char)
  | [] => none
  | c :: rest =>
    match sigMatchAt (c :: rest) with
    | some cap => some cap
    | none => sigSearch rest

/-- First match of the parameter-extraction pattern over a callable's
source text, returning capture group 1 (the parameter-list substring). -/
def jsSignatureMatch (funcStr : String) : Option String :=
  (sigSearch funcStr.toList).map String.mk

/-- Parameter types a reflected schema can carry. -/
inductive ParamType where
  | string
  | number
  | boolean
  | array
  | object
deriving DecidableEq, Repr

/-- Substring test against a (lower-cased) parameter name. -/
def nameHas (nm : List Char) (sub : String) : Bool := listContainsSub sub.toList nm

/-- ModuleReflector.inferParameterType: a token containing `=` is first
classified by the shape of `param.split('=')[1].trim()` (boolean
keyword, Number()-coercible, quote-started, bracket-started,
brace-started, with an early return on the first hit); when no shape
matches, or there is no default, the lower-cased
`param.split('=')[0].trim()` goes through the ordered name-substring
rules, defaulting to string. -/
def inferParameterType (param : String) : ParamType :=
  let fromDefault : Option ParamType :=
    if param.toList.contains '=' then
      let dv := jsTrim (String.mk ((splitOnChar '=' param.toList).getD 1 []))
      if dv = "true" || dv = "false" then some .boolean
      else if jsNumberNotNaN dv then some .number
      else if dv.startsWith "\"" || dv.startsWith "'" then some .string
      else if dv.startsWith "[" then some .array
      else if dv.startsWith lbraceStr then some .object
      else none
    else none
  fromDefault.getD
    (let nm := (jsTrimChars ((splitOnChar '=' param.toList).headD [])).map Char.toLower
     if nameHas nm "count" || nameHas nm "num" || nameHas nm "size" then .number
     else if nameHas nm "flag" || nameHas nm "enable" || nameHas nm "is" then .boolean
     else if nameHas nm "list" || nameHas nm "array" then .array
     else if nameHas nm "config" || nameHas nm "options" then .object
     else .string)

/-- Parameter descriptor produced by signature inference
(MCPToolParameter in types.ts). -/
structure MCPToolParameter where
  name : String
  hasDefault : Bool
  type : ParamType
deriving DecidableEq, Repr

/-- Drop the characters the source strips as destructuring punctuation
(curly braces and square brackets). -/
def removeDestructChars (cs : List Char) : List Char :=
  cs.filter (fun c => !(c = lbrace || c = rbrace || c = '[' || c = ']'))

/-- ModuleReflector.extractParameters: take the capture of the
extraction pattern (no match, or an empty capture, yields the empty
sequence), split it on commas, trim, drop empty tokens, and build one
descriptor per token. -/
def extractParameters (funcStr : String) : List MCPToolParameter :=
  match jsSignatureMatch funcStr with
  | none => []
  | some cap =>
    if cap = "" then []
    else
      (((splitOnChar ',' cap.toList).map jsTrimChars).filter (fun p => !p.isEmpty)).map
        (fun p =>
          { name := String.mk (removeDestructChars (jsTrimChars ((splitOnChar '=' p).headD [])))
            hasDefault := p.contains '='
            type := inferParameterType (String.mk p) })


/-!
Documentation extraction (ModuleReflector.extractJSDoc): the first
doc-block comment of the callable's source, its lines stripped of
leading comment decoration, joined with spaces and trimmed.
-/

/-- Content of `s` strictly before the first occurrence of `pat`, when
`pat` occurs at all. -/
def splitAtLit (pat s : List Char) : Option (List Char) :=
  if listStartsWith pat s then some []
  else
    match s with
    | [] => none
    | c :: rest => (splitAtLit pat rest).map (fun t => c :: t)

/-- Remainder of `s` after the first occurrence of `pat`, when `pat`
occurs at all. -/
def searchLit (pat s : List Char) : Option (List Char) :=
  match stripLit pat s with
  | some r => some r
  | none =>
    match s with
    | [] => none
    | _ :: rest => searchLit pat rest

/-- Strip one line's leading comment decoration: leading whitespace,
one star, and at most one whitespace character after it; a line with no
star after its indentation is kept unchanged. -/
def stripDocLine (line : List Char) : List Char :=
  match line.dropWhile isJsSpace with
  | '*' :: r =>
    match r with
    | c :: r2 => if isJsSpace c then r2 else r
    | [] => []
  | _ => line

/-- ModuleReflector.extractJSDoc: capture between the first doc-comment
opener and the first closer after it (whitespace-trimmed, as the lazy
group in the source pattern yields), then per-line decoration
stripping, a space join, and a final trim.  No doc comment gives none. -/
def extractJSDoc (funcStr : String) : Option String :=
  match searchLit ['/', '*', '*'] funcStr.toList with
  | none => none
  | some afterOpen =>
    match splitAtLit ['*', '/'] afterOpen with
    | none => none
    | some content =>
      some (jsTrim (String.intercalate " "
        ((splitOnChar '\n' (jsTrimChars content)).map (fun l => String.mk (stripDocLine l)))))

/-- JS logical-or defaulting for strings: the empty string is falsy. -/
def jsOrStr (o : Option String) (d : String) : String :=
  match o with
  | some s => if s = "" then d else s
  | none => d

/-!
Runtime values, handler simulation, and tool descriptors.
-/

/-- A JSON-like runtime value; `undef` is JS undefined.  Object fields
are listed in own-property enumeration order.  Numeric values are
modeled as integers (no claim under study involves non-integral
arithmetic). -/
inductive JSVal where
  | str (s : String)
  | num (n : Int)
  | bool (b : Bool)
  | null
  | undef
  | arr (elems : List JSVal)
  | obj (fields : List (String × JSVal))

/-- What a handler's returned promise eventually does, measured from
the moment the synchronous portion returned it. -/
inductive PromiseBehavior where
  | resolves (v : JSVal) (afterMs : Nat)
  | rejects (msg : String) (afterMs : Nat)
  | pending

/-- What a handler invocation does once its synchronous portion ends. -/
inductive HandlerOutcome where
  | retVal (v : JSVal)
  | throwErr (msg : String)
  | promise (p : PromiseBehavior)

/-- One simulated handler invocation: the synchronous portion blocks
the event loop for `syncMs` milliseconds and then returns, throws, or
hands back a promise. -/
structure HandlerSim where
  syncMs : Nat
  outcome : HandlerOutcome

/-- A reflected callable: its source text (what `toString()` yields)
and its dynamic behavior when applied to a `this` context and a
positional argument list. -/
structure JSFunc where
  src : String
  run : List (String × JSVal) → List JSVal → HandlerSim

/-- items annotation of a schema property (`{ type: 'string' }` for
arrays). -/
structure SchemaItems where
  type : String
deriving DecidableEq, Repr

/-- One property of a generated parameter schema. -/
structure SchemaEntry where
  type : ParamType
  description : String
  items : Option SchemaItems := none
deriving DecidableEq, Repr

/-- Assignment into a JS record: replaces the value in place when the
key exists, appends otherwise. -/
def recordSet (l : List (String × α)) (k : String) (v : α) : List (String × α) :=
  match l with
  | [] => [(k, v)]
  | (k0, v0) :: rest => if k0 = k then (k, v) :: rest else (k0, v0) :: recordSet rest k v

/-- Key lookup in a JS record. -/
def recordGet (l : List (String × α)) (k : String) : Option α :=
  match l with
  | [] => none
  | (k0, v) :: rest => if k0 = k then some v else recordGet rest k

/-- The schema entry a parameter contributes: `{type, description}`,
plus an `items: {type: 'string'}` annotation when the inferred type is
array. -/
def schemaEntryFor (p : MCPToolParameter) : SchemaEntry :=
  { type := p.type
    description := "Parameter: " ++ p.name
    items := if p.type = ParamType.array then some { type := "string" } else none }

/-- ModuleReflector.generateParameterSchema: one entry per parameter,
assigned into the record under the parameter's name. -/
def generateParameterSchema (params : List MCPToolParameter) : List (String × SchemaEntry) :=
  params.foldl (fun schema p => recordSet schema p.name (schemaEntryFor p)) []

/-- Input schema of a tool descriptor; the constant `type: 'object'`
field of the source record is implicit. -/
structure InputSchema where
  properties : List (String × SchemaEntry)
  required : List String
deriving DecidableEq, Repr

/-- Tool descriptor (MCPTool in types.ts). -/
structure MCPTool where
  name : String
  description : String
  inputSchema : InputSchema
  handler : JSFunc

/-- analyzeFunction inside ModuleReflector.analyzeExports: run signature
inference over the callable's source, derive the description (JSDoc or
the generated default, with JS falsy defaulting), and assemble the
descriptor. -/
def analyzeFunction (name : String) (func : JSFunc) : MCPTool :=
  let params := extractParameters func.src
  { name
    description := jsOrStr (extractJSDoc func.src) ("Execute " ++ name ++ " function")
    inputSchema :=
      { properties := generateParameterSchema params
        required := (params.filter (fun p => !p.hasDefault)).map (·.name) }
    handler := func }

/-- A module's exported value graph as the reflector sees it: callables,
plain objects (fields in own-property enumeration order), arrays, and
everything else (scalars, null, undefined) as `prim`. -/
inductive JSValue where
  | func (f : JSFunc)
  | obj (fields : List (String × JSValue))
  | arr (elems : List JSValue)
  | prim (v : JSVal)

/-- Tool naming in the export walk: `prefix ? prefix_key : key`, where
the empty parent name is falsy. -/
def joinToolName (pfx key : String) : String :=
  if pfx = "" then key else pfx ++ "_" ++ key

/-- The traverse closure of ModuleReflector.analyzeExports: callable
members become tools, object (non-array) members are recursed into,
array and scalar members are ignored. -/
def traverseValues (pfx : String) : List (String × JSValue) → List MCPTool
  | [] => []
  | (key, v) :: rest =>
    (match v with
     | .func f => [analyzeFunction (joinToolName pfx key) f]
     | .obj fields => traverseValues (joinToolName pfx key) fields
     | .arr _ => []
     | .prim _ => []) ++ traverseValues pfx rest

/-- Object.entries of an array: ascending index keys with the elements. -/
def indexEntries (l : List JSValue) (start : Nat) : List (String × JSValue) :=
  match l with
  | [] => []
  | v :: rest => (toString start, v) :: indexEntries rest (start + 1)

/-- ModuleReflector.analyzeExports: a callable export is registered
under the name `default`; an object export is traversed; an array
export is an object too and is traversed through its index entries;
anything else yields no tools. -/
def analyzeExports (exports : JSValue) : List MCPTool :=
  match exports with
  | .func f => [analyzeFunction "default" f]
  | .obj fields => traverseValues "" fields
  | .arr elems => traverseValues "" (indexEntries elems 0)
  | .prim _ => []

/-!
Sandboxed executor (ToolExecutor in sandbox.ts).  `executeTool` looks
the tool up (throwing the not-found error before the start timestamp is
taken), then awaits a promise raced against a watchdog timer:
`setTimeout` arms a rejection with "Execution timeout" after the
configured budget, the synchronous portion of the handler runs, and
`clearTimeout` executes immediately after `handler.apply` returns (try
branch) or throws (catch branch) — within the same synchronous block,
before the event loop could ever run the timer callback.
-/

/-- Execution result record (ExecutionResult in types.ts); `none` in
`result`/`error` is an absent field. -/
structure ExecutionResult where
  success : Bool
  result : Option JSVal := none
  error : Option String := none
  toolName : String
  executionTime : Nat

/-- How the promise built by executeTool settles, in milliseconds after
the start timestamp; `never` is a promise that never settles. -/
inductive SettledState where
  | resolved (v : JSVal) (atMs : Nat)
  | rejected (msg : String) (atMs : Nat)
  | never

/-- Whether the watchdog timer's rejection runs.  The callback cannot
run before `max timeoutMs syncMs` (the event loop is blocked by the
synchronous portion), while `clearTimeout` executes at `syncMs` in both
the try and the catch branches — so this is constantly false: the
source cancels the timer before an asynchronous result settles. -/
def watchdogFires (timeoutMs : Nat) (h : HandlerSim) : Bool :=
  max timeoutMs h.syncMs < h.syncMs

/-- The race inside executeTool between the armed timer and the
handler's completion. -/
def racePromise (timeoutMs : Nat) (h : HandlerSim) : SettledState :=
  if watchdogFires timeoutMs h then
    .rejected "Execution timeout" (max timeoutMs h.syncMs)
  else
    match h.outcome with
    | .retVal v => .resolved v h.syncMs
    | .throwErr m => .rejected m h.syncMs
    | .promise (.resolves v t) => .resolved v (h.syncMs + t)
    | .promise (.rejects m t) => .rejected m (h.syncMs + t)
    | .promise .pending => .never

/-- Executor state: the module's execution context, the configured
timeout (5000 by default), and the name-keyed tool registry. -/
structure ToolExecutor where
  context : List (String × JSVal)
  timeout : Nat := 5000
  tools : List (String × MCPTool) := []

/-- ToolExecutor.addTool: `this.tools.set(tool.name, tool)`. -/
def ToolExecutor.addTool (ex : ToolExecutor) (t : MCPTool) : ToolExecutor :=
  { ex with tools := recordSet ex.tools t.name t }

/-- ToolExecutor.addTools. -/
def ToolExecutor.addTools (ex : ToolExecutor) (ts : List MCPTool) : ToolExecutor :=
  ts.foldl ToolExecutor.addTool ex

/-- ToolExecutor.getTools: the registry's values in key order. -/
def ToolExecutor.getTools (ex : ToolExecutor) : List MCPTool :=
  ex.tools.map Prod.snd

/-- ToolExecutor.getTool. -/
def ToolExecutor.getTool (ex : ToolExecutor) (name : String) : Option MCPTool :=
  recordGet ex.tools name

/-- Object.values of an argument bag: the values in the bag's
own-property enumeration order (the order the bag list carries). -/
def jsObjectValues (bag : List (String × JSVal)) : List JSVal :=
  bag.map Prod.snd

/-- The per-invocation execution context: the executor's context spread
into a fresh record, with `args`, `result` and `error` fields set. -/
def executionContextOf (ctx : List (String × JSVal)) (args : List (String × JSVal)) :
    List (String × JSVal) :=
  recordSet (recordSet (recordSet ctx "args" (.obj args)) "result" .null) "error" .null

/-- ToolExecutor.executeTool.  `Except.error` is the one exception that
escapes (unknown tool, thrown before the start timestamp); every
settled invocation is `Except.ok (some r)` with failures encoded in
`r.success`/`r.error`; `Except.ok none` is a call that never returns
because the awaited promise never settles. -/
def ToolExecutor.executeTool (ex : ToolExecutor) (toolName : String)
    (args : List (String × JSVal) := []) : Except String (Option ExecutionResult) :=
  match recordGet ex.tools toolName with
  | none => .error ("Tool '" ++ toolName ++ "' not found")
  | some tool =>
    let sim := tool.handler.run (executionContextOf ex.context args) (jsObjectValues args)
    match racePromise ex.timeout sim with
    | .resolved v t =>
      .ok (some { success := true, result := some v, toolName := toolName, executionTime := t })
    | .rejected m t =>
      .ok (some { success := false, error := some m, toolName := toolName, executionTime := t })
    | .never => .ok none


/-!
Protocol server (MCPServer in server.ts): option resolution with JS
falsy defaulting, the generated configuration document, and the
JSON-RPC method dispatch of handleMCPRequest.
-/

/-- Hexadecimal digit character (lower case). -/
def jsonHexDigit (n : Nat) : Char :=
  if n < 10 then Char.ofNat (48 + n) else Char.ofNat (87 + n)

/-- JSON string escaping for one character: quote, backslash and
control characters are escaped, everything else passes through. -/
def jsonEscapeChar (c : Char) : List Char :=
  if c = '"' then ['\\', '"']
  else if c = '\\' then ['\\', '\\']
  else if c = '\n' then ['\\', 'n']
  else if c = '\r' then ['\\', 'r']
  else if c = '\t' then ['\\', 't']
  else if c.toNat = 8 then ['\\', 'b']
  else if c.toNat = 12 then ['\\', 'f']
  else if c.toNat < 32 then
    ['\\', 'u', '0', '0', jsonHexDigit (c.toNat / 16), jsonHexDigit (c.toNat % 16)]
  else [c]

/-- A JSON string literal for `s`. -/
def jsonQuote (s : String) : String :=
  String.mk ('"' :: (s.toList.foldr (fun c acc => jsonEscapeChar c ++ acc) ['"']))

/-- Indentation of `JSON.stringify(v, null, 2)` at nesting depth `d`. -/
def jsonIndent (d : Nat) : String := String.mk (List.replicate (2 * d) ' ')

mutual

/-- `JSON.stringify(v, null, 2)` rendered at nesting depth `d`; `none`
encodes the undefined result JS produces for an undefined input. -/
def jsonStringify (d : Nat) : JSVal → Option String
  | .undef => none
  | .null => some "null"
  | .bool b => some (if b then "true" else "false")
  | .num n => some (toString n)
  | .str s => some (jsonQuote s)
  | .arr l => some (jsonArray d l)
  | .obj l => some (jsonObject d l)

/-- Array rendering: elements one per line, undefined elements as null. -/
def jsonArray (d : Nat) (l : List JSVal) : String :=
  match jsonArrayItems d l with
  | [] => "[]"
  | items => "[\n" ++ String.intercalate ",\n" items ++ "\n" ++ jsonIndent d ++ "]"

/-- Rendered lines of an array's elements. -/
def jsonArrayItems (d : Nat) : List JSVal → List String
  | [] => []
  | v :: rest =>
    (jsonIndent (d + 1) ++ ((jsonStringify (d + 1) v).getD "null")) :: jsonArrayItems d rest

/-- Object rendering: fields one per line, undefined-valued keys dropped. -/
def jsonObject (d : Nat) (l : List (String × JSVal)) : String :=
  match jsonObjectItems d l with
  | [] => "\x7b\x7d"
  | items => "\x7b\n" ++ String.intercalate ",\n" items ++ "\n" ++ jsonIndent d ++ "\x7d"

/-- Rendered lines of an object's fields. -/
def jsonObjectItems (d : Nat) : List (String × JSVal) → List String
  | [] => []
  | (k, v) :: rest =>
    match jsonStringify (d + 1) v with
    | some s => (jsonIndent (d + 1) ++ jsonQuote k ++ ": " ++ s) :: jsonObjectItems d rest
    | none => jsonObjectItems d rest

end

/-- Caller-supplied options (SandboxOptions in types.ts); `none` is an
absent field. -/
structure SandboxOptions where
  port : Option Nat := none
  host : Option String := none
  timeout : Option Nat := none
  maxMemory : Option Nat := none

/-- JS logical-or defaulting for numbers: zero (and absence) is falsy. -/
def jsOrNat (o : Option Nat) (d : Nat) : Nat :=
  match o with
  | some v => if v = 0 then d else v
  | none => d

/-- Fully resolved server options. -/
structure ResolvedOptions where
  port : Nat
  host : String
  timeout : Nat
  maxMemory : Nat
deriving DecidableEq, Repr

/-- The MCPServer constructor's option resolution. -/
def resolveOptions (o : SandboxOptions) : ResolvedOptions :=
  { port := jsOrNat o.port 3000
    host := jsOrStr o.host "localhost"
    timeout := jsOrNat o.timeout 5000
    maxMemory := jsOrNat o.maxMemory (64 * 1024 * 1024) }

/-- Handler-free tool record as published in configuration documents
and tool listings. -/
structure MCPToolPublic where
  name : String
  description : String
  inputSchema : InputSchema
deriving DecidableEq, Repr

/-- Capability flags of the generated configuration document. -/
structure MCPCapabilities where
  tools : Bool
  sampling : Bool
  logging : Bool
deriving DecidableEq, Repr

/-- Endpoint URLs of the generated configuration document. -/
structure MCPEndpoints where
  tools : String
  execute : String
  sse : String
  jsonrpc : String
deriving DecidableEq, Repr

/-- Generated configuration document (MCPConfig in types.ts). -/
structure MCPConfig where
  name : String
  version : String
  description : String
  tools : List MCPToolPublic
  capabilities : MCPCapabilities
  endpoints : MCPEndpoints
deriving DecidableEq, Repr

/-- MCPServer.generateMCPConfig. -/
def MCPServer.generateMCPConfig (opts : ResolvedOptions) (tools : List MCPTool) : MCPConfig :=
  let base := "http://" ++ opts.host ++ ":" ++ toString opts.port
  { name := "mcp-sandbox"
    version := "1.0.0"
    description := "Dynamically generated MCP server from JavaScript module"
    tools := tools.map (fun t => ⟨t.name, t.description, t.inputSchema⟩)
    capabilities := ⟨true, false, true⟩
    endpoints :=
      ⟨base ++ "/mcp/tools", base ++ "/mcp/execute", base ++ "/sse", base ++ "/mcp/jsonrpc"⟩ }

/-- params of a tools/call request; `none` marks absent fields. -/
structure MCPCallParams where
  name : Option String := none
  arguments : Option (List (String × JSVal)) := none

/-- Inbound protocol message (MCPMessage's request half). -/
structure MCPRequest where
  id : Option JSVal := none
  method : Option String := none
  params : Option MCPCallParams := none

/-- Error member of a protocol response. -/
structure MCPErrorInfo where
  code : Int
  message : String

/-- Outbound protocol message (the `jsonrpc: '2.0'` field is implicit). -/
structure MCPResponse where
  id : Option JSVal := none
  result : Option JSVal := none
  error : Option MCPErrorInfo := none

/-- JSON name of a parameter type. -/
def ParamType.toJsonName : ParamType → String
  | .string => "string"
  | .number => "number"
  | .boolean => "boolean"
  | .array => "array"
  | .object => "object"

/-- A schema property as a runtime value. -/
def SchemaEntry.toJSVal (e : SchemaEntry) : JSVal :=
  .obj ([("type", .str e.type.toJsonName), ("description", .str e.description)] ++
    (match e.items with
     | some it => [("items", .obj [("type", .str it.type)])]
     | none => []))

/-- An input schema as a runtime value. -/
def InputSchema.toJSVal (s : InputSchema) : JSVal :=
  .obj [("type", .str "object"),
        ("properties", .obj (s.properties.map (fun kv => (kv.1, kv.2.toJSVal)))),
        ("required", .arr (s.required.map .str))]

/-- The `{name, description, inputSchema}` projection of a tool, as
listed by tools/list. -/
def toolListedJSVal (t : MCPTool) : JSVal :=
  .obj [("name", .str t.name), ("description", .str t.description),
        ("inputSchema", t.inputSchema.toJSVal)]

/-- Message of the default branch of the dispatch switch; an absent
method stringifies as `undefined` in the template literal. -/
def unknownMethodText (m : Option String) : String :=
  "Unknown method: " ++ (match m with | some s => s | none => "undefined")

/-- The catch-branch response: the request's id, code -32603, and the
thrown message. -/
def mcpErrorResponse (id : Option JSVal) (msg : String) : MCPResponse :=
  { id := id, error := some { code := -32603, message := msg } }

/-- MCPServer.handleMCPRequest: the fixed five-method dispatch table.
Every thrown error (missing tools/call name, unknown tool, failed
execution, unknown method) lands in the catch branch, which produces an
error response carrying the request's id, code -32603 and the thrown
message.  A tools/call whose awaited execution never settles never
responds, encoded as `none`. -/
def MCPServer.handleMCPRequest (ex : ToolExecutor) (msg : MCPRequest) : Option MCPResponse :=
  if msg.method = some "initialize" then
    some { id := msg.id
           result := some (.obj
             [("protocolVersion", .str "2024-11-05"),
              ("capabilities", .obj [("tools", .obj []), ("logging", .obj [])]),
              ("serverInfo", .obj [("name", .str "mcp-sandbox"), ("version", .str "1.0.0")])]) }
  else if msg.method = some "notifications/initialized" then
    some { id := msg.id, result := some (.obj []) }
  else if msg.method = some "tools/list" then
    some { id := msg.id
           result := some (.obj [("tools", .arr (ex.getTools.map toolListedJSVal))]) }
  else if msg.method = some "tools/call" then
    match msg.params with
    | none => some (mcpErrorResponse msg.id "Tool name is required")
    | some p =>
      match p.name with
      | none => some (mcpErrorResponse msg.id "Tool name is required")
      | some "" => some (mcpErrorResponse msg.id "Tool name is required")
      | some nm =>
        match ex.executeTool nm (p.arguments.getD []) with
        | .error e => some (mcpErrorResponse msg.id e)
        | .ok none => none
        | .ok (some r) =>
          if r.success then
            some { id := msg.id
                   result := some (.obj
                     [("content", .arr
                        [.obj [("type", .str "text"),
                               ("text", match r.result.bind (jsonStringify 0) with
                                        | some s => .str s
                                        | none => .undef)]]),
                      ("isError", .bool false)]) }
          else some (mcpErrorResponse msg.id (jsOrStr r.error "Tool execution failed"))
  else if msg.method = some "ping" then
    some { id := msg.id, result := some (.obj [("pong", .bool true)]) }
  else
    some (mcpErrorResponse msg.id (unknownMethodText msg.method))

/-!
MCPSandbox facade.  loadModule runs the reflector (host I/O, outside
this embedding) and binds an executor; the guards of the remaining
operations are embedded here.  The file write of saveConfig and the
listen of start are host I/O; their embedded results are the computed
configuration document and unit.
-/

/-- Facade state: the reflector's configured timeout, the server's
resolved options, and the executor once a module has been loaded. -/
structure MCPSandbox where
  reflectorTimeout : Nat
  serverOptions : ResolvedOptions
  executor : Option ToolExecutor := none

/-- The MCPSandbox constructor: no module loaded yet.  The reflector
takes `options.timeout` through a default parameter (absence, not
falsiness, triggers 5000), while the server resolves options with
JS logical-or defaulting. -/
def MCPSandbox.new (options : SandboxOptions) : MCPSandbox :=
  { reflectorTimeout := options.timeout.getD 5000
    serverOptions := resolveOptions options
    executor := none }

/-- The error message of the unloaded-state guards. -/
def noModuleMsg : String := "No module loaded. Call loadModule() first."

/-- MCPSandbox.getTools: an unloaded sandbox yields the empty list. -/
def MCPSandbox.getTools (s : MCPSandbox) : List MCPTool :=
  match s.executor with
  | none => []
  | some ex => ex.getTools

/-- MCPSandbox.executeTool: guarded delegation to the executor. -/
def MCPSandbox.executeTool (s : MCPSandbox) (toolName : String)
    (args : List (String × JSVal) := []) : Except String (Option ExecutionResult) :=
  match s.executor with
  | none => .error noModuleMsg
  | some ex => ex.executeTool toolName args

/-- MCPSandbox.start: guarded; the listen itself is host I/O. -/
def MCPSandbox.start (s : MCPSandbox) : Except String Unit :=
  match s.executor with
  | none => .error noModuleMsg
  | some _ => .ok ()

/-- MCPSandbox.saveConfig: guarded; the embedded result is the computed
configuration document (the file write is host I/O). -/
def MCPSandbox.saveConfig (s : MCPSandbox) : Except String MCPConfig :=
  match s.executor with
  | none => .error noModuleMsg
  | some ex => .ok (MCPServer.generateMCPConfig s.serverOptions ex.getTools)


/-- An executor with an empty registry. -/
def emptyExecutor : ToolExecutor := { context := [], tools := [] }

/-- A handler whose synchronous portion returns immediately, handing
back a promise that resolves with 1 only 10000 ms later. -/
def slowResolveHandler : JSFunc :=
  { src := "function slow()"
    run := fun _ _ => { syncMs := 0, outcome := .promise (.resolves (.num 1) 10000) } }

/-- The tool built over `slowResolveHandler`. -/
def slowResolveTool : MCPTool :=
  { name := "slow", description := "", inputSchema := ⟨[], []⟩, handler := slowResolveHandler }

/-- An executor holding only `slowResolveTool`, with the default 5000 ms
budget. -/
def slowResolveExecutor : ToolExecutor :=
  { context := [], timeout := 5000, tools := [("slow", slowResolveTool)] }

/-- The ordering C2 claims (from the spec's words, for comparison with
the source): the argument values arranged in the schema's declared
parameter order. -/
def specSchemaOrderValues (schemaParams : List String) (bag : List (String × JSVal)) :
    List JSVal :=
  schemaParams.filterMap (fun p => recordGet bag p)

/-- A handler that immediately echoes back, as an array, the positional
argument list it was invoked with. -/
def echoHandler : JSFunc :=
  { src := "function pair(a, b)"
    run := fun _ received => { syncMs := 0, outcome := .retVal (.arr received) } }

/-- The reflected descriptor of `echoHandler`: schema parameter order
is `a` then `b`. -/
def echoTool : MCPTool := analyzeFunction "pair" echoHandler

/-- An executor holding only `echoTool`. -/
def echoExecutor : ToolExecutor := { context := [], tools := [("pair", echoTool)] }

/-- An argument bag whose enumeration order is the reverse of the
schema's parameter order. -/
def reversedBag : List (String × JSVal) := [("b", .num 10), ("a", .num 20)]

/-- The default-value text of a parameter token, when the token has
one: the text between the first and second `=`, trimmed (shared by the
source's inference and the claim-side procedure below). -/
def paramDefaultValue (param : String) : Option String :=
  if param.toList.contains '=' then
    some (jsTrim (String.mk ((splitOnChar '=' param.toList).getD 1 [])))
  else none

/-- The claim's tier-2/3 procedure: the lower-cased name checked
against the ordered substring rules, defaulting to string. -/
def specNameRule (param : String) : ParamType :=
  let nm := (jsTrimChars ((splitOnChar '=' param.toList).headD [])).map Char.toLower
  if nameHas nm "count" || nameHas nm "num" || nameHas nm "size" then .number
  else if nameHas nm "flag" || nameHas nm "enable" || nameHas nm "is" then .boolean
  else if nameHas nm "list" || nameHas nm "array" then .array
  else if nameHas nm "config" || nameHas nm "options" then .object
  else .string

/-- The claim's tier-1 literal-shape classifier read strictly: a
"numeric literal" is an optionally signed decimal numeral or an unsigned
radix-prefixed numeral — in particular not the empty string and not an
`Infinity` identifier, even though `Number()` coerces both. -/
def specNumericLiteral (dv : String) : Bool :=
  let cs := dv.toList
  !cs.isEmpty &&
    ((match parseRadix cs with | some [] => true | _ => false)
     || (match parseUnsignedDec
           (match cs with
            | c :: r => if c = '+' || c = '-' then r else cs
            | [] => cs) with
         | some [] => true | _ => false))

/-- Tier-1 of the claim's procedure, strict reading. -/
def specLiteralShape (dv : String) : Option ParamType :=
  if dv = "true" || dv = "false" then some .boolean
  else if specNumericLiteral dv then some .number
  else if dv.startsWith "\"" || dv.startsWith "'" then some .string
  else if dv.startsWith "[" then some .array
  else if dv.startsWith lbraceStr then some .object
  else none

/-- C5's procedure as claimed, under the charitable fall-through
reading: a defaulted token whose literal shape matches none of the five
still reaches the name rules. -/
def specInferParameterType (param : String) : ParamType :=
  match paramDefaultValue param with
  | some dv => (specLiteralShape dv).getD (specNameRule param)
  | none => specNameRule param

/-- Tier-1 with the amended numeric rule: any default text `Number()`
coerces to a non-NaN value (the empty string included) counts as
numeric. -/
def specLiteralShapeAmended (dv : String) : Option ParamType :=
  if dv = "true" || dv = "false" then some .boolean
  else if jsNumberNotNaN dv then some .number
  else if dv.startsWith "\"" || dv.startsWith "'" then some .string
  else if dv.startsWith "[" then some .array
  else if dv.startsWith lbraceStr then some .object
  else none

/-- The claim's procedure with the amended numeric rule. -/
def specInferParameterTypeAmended (param : String) : ParamType :=
  match paramDefaultValue param with
  | some dv => (specLiteralShapeAmended dv).getD (specNameRule param)
  | none => specNameRule param

/-- A concrete reflected callable with one plain and one defaulted
parameter. -/
def docAddHandler : JSFunc :=
  { src := "function f(a, b = 1)", run := fun _ _ => { syncMs := 0, outcome := .retVal .null } }

/-!
Claim theorems.
-/

/-- The watchdog never fires: cancellation at the end of the
synchronous block always precedes the earliest moment the event loop
could run the timer callback. -/
theorem watchdogFires_eq_false (timeoutMs : Nat) (h : HandlerSim) :
    watchdogFires timeoutMs h = false := by
  simp [watchdogFires]

/-- C1: refuted by evaluation — the source clears the watchdog timer as
soon as the handler's synchronous portion returns its still-pending
promise, so a handler that resolves 10000 ms later, twice the 5000 ms
budget, still produces `success := true` with the late value instead of
the required `success := false` / "Execution timeout" result (and a
never-settling promise makes the call never return at all). -/
theorem c1_late_async_resolution_reports_success :
    slowResolveExecutor.executeTool "slow" [] =
      .ok (some { success := true, result := some (.num 1), error := none,
                  toolName := "slow", executionTime := 10000 }) ∧
    slowResolveExecutor.timeout = 5000 := ⟨rfl, rfl⟩

/-- C9: a freshly constructed sandbox (no module loaded) returns the
empty tool list from getTools, while executeTool, start and saveConfig
all fail with the "No module loaded. Call loadModule() first." error. -/
theorem c9_unloaded_sandbox_guards (options : SandboxOptions) (toolName : String)
    (args : List (String × JSVal)) :
    (MCPSandbox.new options).getTools = [] ∧
    (MCPSandbox.new options).executeTool toolName args = .error noModuleMsg ∧
    (MCPSandbox.new options).start = .error noModuleMsg ∧
    (MCPSandbox.new options).saveConfig = .error noModuleMsg :=
  ⟨rfl, rfl, rfl, rfl⟩

/-- C8: signature inference is total by construction (extractParameters
is a Lean function into parameter lists, with no error outcome); when
the extraction pattern finds no match, or captures an empty parameter
list, the result is the empty descriptor sequence, so the callable is
treated as zero-argument. -/
theorem c8_extract_parameters_total_on_failure (s : String) :
    (jsSignatureMatch s = none → extractParameters s = []) ∧
    (jsSignatureMatch s = some "" → extractParameters s = []) := by
  constructor <;> intro h <;> simp [extractParameters, h]

/-- C8 witness: a bare arrow callable's source has no match (the
pattern demands a parenthesized group after the arrow), and inference
yields the empty sequence. -/
theorem c8_extract_parameters_total_on_failure_witness :
    extractParameters "x => x + 1" = [] :=
  (c8_extract_parameters_total_on_failure "x => x + 1").1 rfl

/-- C7: a request whose method is present but outside the five-entry
dispatch table receives an error response that carries the request's
id, code -32603, and the message "Unknown method: " followed by the
method name. -/
theorem c7_unknown_method_error (ex : ToolExecutor) (id : Option JSVal)
    (params : Option MCPCallParams) (m : String)
    (h : m ∉ ["initialize", "notifications/initialized", "tools/list", "tools/call", "ping"]) :
    MCPServer.handleMCPRequest ex { id := id, method := some m, params := params } =
      some { id := id, result := none,
             error := some { code := -32603, message := "Unknown method: " ++ m } } := by
  simp only [List.mem_cons, List.mem_singleton, not_or] at h
  obtain ⟨h1, h2, h3, h4, h5, -⟩ := h
  simp [MCPServer.handleMCPRequest, mcpErrorResponse, unknownMethodText, h1, h2, h3, h4, h5]

/-- C7 witness: the unknown method "foo" at a concrete executor. -/
theorem c7_unknown_method_error_witness :
    MCPServer.handleMCPRequest emptyExecutor { id := none, method := some "foo", params := none } =
      some { id := none, result := none,
             error := some { code := -32603, message := "Unknown method: foo" } } :=
  c7_unknown_method_error emptyExecutor none none "foo" (by decide)

/-- C3: executeTool escapes with an exception exactly when the tool is
not in the registry — the not-found branch precedes the start timestamp
and the handler invocation in the definition, and the thrown message is
the distinct not-found text — while for a registered tool a synchronous
throw or an asynchronous rejection (the only rejection sources, the
timer being dead) is encoded as `success := false` with the message,
never propagated. -/
theorem c3_throws_iff_tool_not_found (ex : ToolExecutor) (toolName : String)
    (args : List (String × JSVal)) :
    (∀ e, ex.executeTool toolName args = .error e →
       recordGet ex.tools toolName = none ∧ e = "Tool '" ++ toolName ++ "' not found") ∧
    (recordGet ex.tools toolName = none →
       ex.executeTool toolName args = .error ("Tool '" ++ toolName ++ "' not found")) ∧
    (∀ tool m t, recordGet ex.tools toolName = some tool →
       racePromise ex.timeout
           (tool.handler.run (executionContextOf ex.context args) (jsObjectValues args)) =
         .rejected m t →
       ex.executeTool toolName args =
         .ok (some { success := false, result := none, error := some m,
                     toolName := toolName, executionTime := t })) := by
  refine ⟨?_, ?_, ?_⟩
  · intro e he
    unfold ToolExecutor.executeTool at he
    cases hg : recordGet ex.tools toolName with
    | none =>
      rw [hg] at he
      exact ⟨rfl, (Except.error.injEq _ _).mp he.symm⟩
    | some tool =>
      rw [hg] at he
      cases hr : racePromise ex.timeout
          (tool.handler.run (executionContextOf ex.context args) (jsObjectValues args)) <;>
        simp [hr] at he
  · intro hg
    unfold ToolExecutor.executeTool
    rw [hg]
  · intro tool m t hg hr
    unfold ToolExecutor.executeTool
    rw [hg]
    simp [hr]

/-- C3 witness: at an empty registry the call escapes with exactly the
not-found message. -/
theorem c3_throws_iff_tool_not_found_witness :
    emptyExecutor.executeTool "missing" [] = .error "Tool 'missing' not found" :=
  (c3_throws_iff_tool_not_found emptyExecutor "missing" []).2.1 rfl

/-- C2 counterexample: with the bag listing `b` before `a`, the echoing
handler receives `[10, 20]` — the bag's own order — whereas the claim's
schema order (`a` then `b`) would be `[20, 10]`; the source never
consults the schema when building the call. -/
theorem c2_schema_order_counterexample :
    echoTool.inputSchema.properties.map Prod.fst = ["a", "b"] ∧
    echoExecutor.executeTool "pair" reversedBag =
      .ok (some { success := true, result := some (.arr [.num 10, .num 20]), error := none,
                  toolName := "pair", executionTime := 0 }) ∧
    specSchemaOrderValues (echoTool.inputSchema.properties.map Prod.fst) reversedBag =
      [.num 20, .num 10] ∧
    (JSVal.arr [.num 10, .num 20] ≠ JSVal.arr [.num 20, .num 10]) := by
  refine ⟨rfl, rfl, rfl, ?_⟩
  intro h
  simp at h

/-- C2 amended: executeTool invokes the handler with `Object.values` of
the argument bag — the values in the bag's own-property enumeration
order — irrespective of the schema attached to the tool, as witnessed
by an echoing handler under an arbitrary schema and bag. -/
theorem c2_handler_receives_bag_order (args : List (String × JSVal)) (nm ds : String)
    (schema : InputSchema) (ctx : List (String × JSVal)) (tmo : Nat) :
    ToolExecutor.executeTool
        { context := ctx, timeout := tmo,
          tools := [(nm, { name := nm, description := ds, inputSchema := schema,
                           handler := echoHandler })] }
        nm args =
      .ok (some { success := true, result := some (.arr (jsObjectValues args)), error := none,
                  toolName := nm, executionTime := 0 }) := by
  simp [ToolExecutor.executeTool, recordGet, racePromise, watchdogFires, echoHandler]

/-- C5 counterexample: the token `x=` carries a default whose text is
empty.  Empty text is no literal of any of the five shapes, and the
name `x` matches no substring rule, so the claimed procedure yields
string — but the source yields number, because its numeric test is
`!isNaN(Number(dv))` and `Number('')` is 0. -/
theorem c5_empty_default_counterexample :
    inferParameterType "x=" = ParamType.number ∧
    specInferParameterType "x=" = ParamType.string ∧
    ParamType.number ≠ ParamType.string := ⟨rfl, rfl, by decide⟩

/-- C5 amended: with "numeric literal" amended to "default text that
`Number()` coerces to a non-NaN value (the empty string included)", the
claimed priority — defaults first, shape by shape in the stated order,
falling through to the ordered name-substring rules, then string —
coincides with the source's inference on every token. -/
theorem c5_inference_priority_amended (param : String) :
    inferParameterType param = specInferParameterTypeAmended param := by
  unfold inferParameterType specInferParameterTypeAmended paramDefaultValue
  by_cases h : param.toList.contains '=' = true
  · simp only [if_pos h]
    rfl
  · simp only [if_neg h]
    rfl

/-- C6: the export walk — a callable export becomes the single tool
named `default`; within an aggregate, each callable member becomes a
tool whose name joins its key to the parent name, object members are
traversed further under the joined name, array and scalar members
contribute nothing; and the joined name is the bare key at the empty
parent, else parent, underscore, key. -/
theorem c6_export_walk :
    (∀ f, analyzeExports (.func f) = [analyzeFunction "default" f]) ∧
    (∀ pfx (l : List (String × JSValue)),
       traverseValues pfx l = l.flatMap (fun kv =>
         match kv.2 with
         | .func f => [analyzeFunction (joinToolName pfx kv.1) f]
         | .obj fields => traverseValues (joinToolName pfx kv.1) fields
         | .arr _ => []
         | .prim _ => [])) ∧
    (∀ k, joinToolName "" k = k) ∧
    (∀ pfx k, pfx ≠ "" → joinToolName pfx k = pfx ++ "_" ++ k) := by
  refine ⟨fun f => rfl, ?_, fun k => rfl, fun pfx k h => by simp [joinToolName, h]⟩
  intro pfx l
  induction l with
  | nil => simp [traverseValues]
  | cons kv rest ih =>
    obtain ⟨k, v⟩ := kv
    cases v <;> simp [traverseValues, ih]

/-- C6 witness: a nested callable member is registered under the
underscore-joined name. -/
theorem c6_export_walk_witness :
    traverseValues "math" [("add", .func echoHandler)] =
      [analyzeFunction (joinToolName "math" "add") echoHandler] ∧
    joinToolName "math" "add" = "math" ++ "_" ++ "add" :=
  ⟨by rw [c6_export_walk.2.1 "math" [("add", .func echoHandler)]]; rfl,
   c6_export_walk.2.2.2 "math" "add" (by decide)⟩

/-- Every tool the export walk produces is an analyzeFunction result. -/
theorem traverseValues_mem_shape (pfx : String) (l : List (String × JSValue)) :
    ∀ t ∈ traverseValues pfx l, ∃ n f, t = analyzeFunction n f := by
  induction pfx, l using traverseValues.induct with
  | case1 pfx =>
    intro t ht
    simp [traverseValues] at ht
  | case2 pfx key v rest ihv ihr =>
    intro t ht
    cases v with
    | func f =>
      simp only [traverseValues, List.mem_append, List.mem_singleton] at ht
      rcases ht with h | h
      · exact ⟨_, _, h⟩
      · exact ihr t h
    | obj fields =>
      simp only [traverseValues, List.mem_append] at ht
      rcases ht with h | h
      · exact ihv t h
      · exact ihr t h
    | arr es =>
      simp only [traverseValues, List.nil_append] at ht
      exact ihr t ht
    | prim p =>
      simp only [traverseValues, List.nil_append] at ht
      exact ihr t ht

/-- Every tool reflection registers is an analyzeFunction result. -/
theorem analyzeExports_mem_shape (exports : JSValue) (t : MCPTool)
    (ht : t ∈ analyzeExports exports) : ∃ n f, t = analyzeFunction n f := by
  cases exports with
  | func f =>
    simp only [analyzeExports, List.mem_singleton] at ht
    exact ⟨_, _, ht⟩
  | obj fields => exact traverseValues_mem_shape _ _ t ht
  | arr es => exact traverseValues_mem_shape _ _ t ht
  | prim p => simp [analyzeExports] at ht

/-- Keys of a record after an assignment: the assigned key and the
previous keys. -/
theorem recordSet_mem_keys (l : List (String × α)) (k n : String) (v : α) :
    n ∈ (recordSet l k v).map Prod.fst ↔ n = k ∨ n ∈ l.map Prod.fst := by
  induction l with
  | nil => simp [recordSet]
  | cons kv rest ih =>
    obtain ⟨k0, v0⟩ := kv
    by_cases h : k0 = k
    · subst h
      simp [recordSet]
    · simp only [recordSet, if_neg h, List.map_cons, List.mem_cons, ih]
      tauto

/-- Keys of the schema fold over an arbitrary accumulator. -/
theorem generateParameterSchema_keys_aux (params : List MCPToolParameter)
    (acc : List (String × SchemaEntry)) (n : String) :
    (n ∈ (params.foldl (fun schema p => recordSet schema p.name (schemaEntryFor p)) acc).map
        Prod.fst) ↔
      n ∈ acc.map Prod.fst ∨ n ∈ params.map (·.name) := by
  induction params generalizing acc with
  | nil => simp
  | cons p ps ih =>
    simp only [List.foldl_cons, ih, recordSet_mem_keys, List.map_cons, List.mem_cons]
    tauto

/-- The generated schema's property names are exactly the parameter
names. -/
theorem generateParameterSchema_keys (params : List MCPToolParameter) (n : String) :
    n ∈ (generateParameterSchema params).map Prod.fst ↔ n ∈ params.map (·.name) := by
  rw [generateParameterSchema, generateParameterSchema_keys_aux]
  simp

/-- C4: for every descriptor reflection produces, the required list is
exactly the names of the parameters without defaults, and each required
name is a key of the generated property mapping; a callable with no
discoverable parameters still gets a well-formed descriptor with empty
properties and empty required. -/
theorem c4_required_matches_schema :
    (∀ (exports : JSValue) (t : MCPTool), t ∈ analyzeExports exports →
       t.inputSchema.required =
         ((extractParameters t.handler.src).filter (fun p => !p.hasDefault)).map (·.name) ∧
       ∀ n ∈ t.inputSchema.required, n ∈ t.inputSchema.properties.map Prod.fst) ∧
    (∀ (name : String) (f : JSFunc), extractParameters f.src = [] →
       (analyzeFunction name f).inputSchema.properties = [] ∧
       (analyzeFunction name f).inputSchema.required = []) := by
  constructor
  · intro exports t ht
    obtain ⟨nm, f, rfl⟩ := analyzeExports_mem_shape exports t ht
    refine ⟨rfl, ?_⟩
    intro n hn
    apply (generateParameterSchema_keys (extractParameters f.src) n).mpr
    simp only [analyzeFunction, List.mem_map, List.mem_filter] at hn ⊢
    obtain ⟨p, hp, rfl⟩ := hn
    exact ⟨p, hp.1, rfl⟩
  · intro name f h
    simp [analyzeFunction, generateParameterSchema, h]

/-- C4 witness: on `function f(a, b = 1)` the required list is `["a"]`
and `a` is a property key. -/
theorem c4_required_matches_schema_witness :
    (analyzeFunction "default" docAddHandler).inputSchema.required = ["a"] ∧
    "a" ∈ (analyzeFunction "default" docAddHandler).inputSchema.properties.map Prod.fst := by
  have h := c4_required_matches_schema.1 (.func docAddHandler)
    (analyzeFunction "default" docAddHandler) (List.mem_singleton.mpr rfl)
  exact ⟨h.1.trans (by decide), h.2 "a" (by decide)⟩

/-- Assignment preserves an entrywise invariant when the new pair
satisfies it. -/
theorem recordSet_forall {P : String × α → Prop} (l : List (String × α)) (k : String) (v : α)
    (hl : ∀ x ∈ l, P x) (hv : P (k, v)) : ∀ x ∈ recordSet l k v, P x := by
  induction l with
  | nil =>
    intro x hx
    simp only [recordSet, List.mem_singleton] at hx
    exact hx ▸ hv
  | cons kv rest ih =>
    intro x hx
    obtain ⟨k0, v0⟩ := kv
    by_cases h : k0 = k
    · simp only [recordSet, if_pos h, List.mem_cons] at hx
      rcases hx with rfl | hx
      · exact hv
      · exact hl x (List.mem_cons_of_mem _ hx)
    · simp only [recordSet, if_neg h, List.mem_cons] at hx
      rcases hx with rfl | hx
      · exact hl _ (List.mem_cons_self _ _)
      · exact ih (fun y hy => hl y (List.mem_cons_of_mem _ hy)) x hx

/-- The schema fold preserves an entrywise invariant established by the
per-parameter entry builder. -/
theorem generateParameterSchema_forall {P : String × SchemaEntry → Prop}
    (hstep : ∀ p : MCPToolParameter, P (p.name, schemaEntryFor p)) :
    ∀ (params : List MCPToolParameter) (acc : List (String × SchemaEntry)),
      (∀ x ∈ acc, P x) →
      ∀ x ∈ params.foldl (fun schema p => recordSet schema p.name (schemaEntryFor p)) acc, P x := by
  intro params
  induction params with
  | nil => intro acc hacc x hx; exact hacc x hx
  | cons p ps ih =>
    intro acc hacc x hx
    exact ih _ (recordSet_forall acc p.name (schemaEntryFor p) hacc (hstep p)) x hx

/-- C10: every entry of a generated schema carries the
`items: {type: 'string'}` annotation exactly when its type is array. -/
theorem c10_array_items (params : List MCPToolParameter) (n : String) (e : SchemaEntry)
    (h : (n, e) ∈ generateParameterSchema params) :
    e.items = if e.type = ParamType.array then some { type := "string" } else none := by
  have hall := generateParameterSchema_forall
    (P := fun x =>
      x.2.items = if x.2.type = ParamType.array then some { type := "string" } else none)
    (fun p => by simp [schemaEntryFor]) params [] (by simp) (n, e) h
  simpa using hall

/-- C10 witness: an array-typed parameter's entry carries the items
annotation. -/
theorem c10_array_items_witness :
    (schemaEntryFor { name := "xs", hasDefault := false, type := .array }).items =
      some { type := "string" } :=
  c10_array_items [{ name := "xs", hasDefault := false, type := .array }] "xs" _ (by decide)


example : jsSignatureMatch "function f(a, b = 1)" = some "a, b = 1" := by decide
example : jsSignatureMatch "x => x + 1" = none := by decide
example : jsSignatureMatch "(a, b) => (a + b)" = some "a + b" := by decide
example : extractParameters "function f(a, b = 1)" =
    [{ name := "a", hasDefault := false, type := .string },
     { name := "b", hasDefault := true, type := .number }] := by decide
example : inferParameterType "x=" = .number := by decide
